import Mathlib

/-!
Verification of the divvy allocation boundary (src/divvy-cpp/src/ffi.cpp).

The source under verification is a two-function FFI shim:

  extern "C" {
  void *divvy_cpp_alloc(size_t size, size_t align) {
    return ::operator new(size, static_cast<std::align_val_t>(align),
                          std::nothrow);
  }
  void divvy_cpp_dealloc(void *ptr, size_t size, size_t align) {
    ::operator delete(ptr, size, static_cast<std::align_val_t>(align));
  }
  }

The underlying process-wide allocator (`::operator new` / `::operator delete`)
is not part of the repository; it is modelled from the spec (sections 4.1, 7
and 9) as a capability over an explicit heap state: allocation returns an
aligned, non-null, fresh address or signals failure; the nothrow variant
intercepts the throwing variant's fault and converts it to a null result;
sized/aligned deallocation removes a live block and treats a null pointer as
a no-op.  Addresses are natural numbers with 0 playing the role of the null
pointer; a returned address is represented as `Option Nat` (`none` = null).
-/

namespace Divvy

/-- An ephemeral memory block, identified by the (address, size, alignment)
triple for the duration between allocation and deallocation (spec section 3). -/
structure Block where
  addr : Nat
  size : Nat
  align : Nat
deriving DecidableEq, Repr

/-- Modelled from the spec: the process-wide heap state mutated by the
underlying allocator.  `next` is the lowest address not yet handed out,
`limit` bounds the usable address space (so exhaustion is representable),
`live` records the outstanding blocks, and `mem` gives the byte content at
each address. -/
structure Heap where
  next : Nat
  limit : Nat
  live : List Block
  mem : Nat → Nat

/-- `n` is a power of two (the validity condition the spec places on
`align`). -/
def isPow2 (n : Nat) : Bool :=
  n != 0 && (n &&& (n - 1)) == 0

/-- Round `n` up to the next multiple of `a`. -/
def alignUp (n a : Nat) : Nat :=
  ((n + a - 1) / a) * a

/-- Modelled from the spec: the fault the underlying allocator raises when it
cannot satisfy a request (C++ `std::bad_alloc`). -/
inductive AllocFault where
  | badAlloc
deriving DecidableEq, Repr

/-- Modelled from the spec: the core of the process-wide aligned allocation
primitive.  On a valid power-of-two alignment it hands out the next free
address rounded up to the alignment, provided the block fits below `limit`;
otherwise (invalid alignment or exhaustion) it fails. -/
def allocCore (h : Heap) (size align : Nat) : Option (Heap × Nat) :=
  if isPow2 align then
    let addr := alignUp (max h.next 1) align
    if addr + size ≤ h.limit then
      some ({ h with
                next := addr + max size 1,
                live := ⟨addr, size, align⟩ :: h.live },
            addr)
    else none
  else none

/-- Modelled from the spec: throwing aligned `::operator new` — raises a
fault (`bad_alloc`) when the request cannot be satisfied. -/
def opNewAlignedThrowing (h : Heap) (size align : Nat) :
    Except AllocFault (Heap × Nat) :=
  match allocCore h size align with
  | some r => .ok r
  | none => .error .badAlloc

/-- Modelled from the spec: nothrow aligned `::operator new` — intercepts the
throwing variant's fault and converts it into a null result, leaving the heap
unchanged. -/
def opNewAlignedNothrow (h : Heap) (size align : Nat) : Heap × Option Nat :=
  match opNewAlignedThrowing h size align with
  | .ok (h2, a) => (h2, some a)
  | .error _ => (h, none)

/-- Modelled from the spec: sized, aligned `::operator delete`.  A null
pointer is a no-op (as the C++ standard requires of deallocation functions);
otherwise the block at `ptr` is removed from the live set and the freed bytes
become indeterminate (modelled as zeroed). -/
def opDeleteSizedAligned (h : Heap) (ptr size align : Nat) : Heap :=
  if ptr = 0 then h
  else
    { h with
        live := h.live.filter (fun b => b.addr != ptr),
        mem := fun i => if ptr ≤ i ∧ i < ptr + size then 0 else h.mem i }

/-- `divvy_cpp_alloc` from src/divvy-cpp/src/ffi.cpp: returns
`::operator new(size, static_cast<align_val_t>(align), nothrow)`, a direct
pass-through to the underlying nothrow aligned allocation primitive. -/
def divvy_cpp_alloc (h : Heap) (size align : Nat) : Heap × Option Nat :=
  opNewAlignedNothrow h size align

/-- `divvy_cpp_dealloc` from src/divvy-cpp/src/ffi.cpp: performs
`::operator delete(ptr, size, static_cast<align_val_t>(align))`, a direct
pass-through to the underlying sized aligned deallocation primitive. -/
def divvy_cpp_dealloc (h : Heap) (ptr size align : Nat) : Heap :=
  opDeleteSizedAligned h ptr size align

/-- Write the byte pattern `pat` into memory starting at `addr`. -/
def writeBytes (h : Heap) (addr : Nat) (pat : List Nat) : Heap :=
  { h with
      mem := fun i =>
        if addr ≤ i ∧ i < addr + pat.length then pat.getD (i - addr) 0
        else h.mem i }

/-- Read `n` bytes of memory starting at `addr`. -/
def readBytes (h : Heap) (addr n : Nat) : List Nat :=
  (List.range n).map (fun i => h.mem (addr + i))

/-- Deallocate each block in `bs` through the boundary, with its originating
size and alignment. -/
def deallocList (h : Heap) (bs : List Block) : Heap :=
  bs.foldl (fun h2 b => divvy_cpp_dealloc h2 b.addr b.size b.align) h

/-- Two blocks occupy disjoint address ranges. -/
def Block.disjoint (b c : Block) : Prop :=
  b.addr + b.size ≤ c.addr ∨ c.addr + c.size ≤ b.addr

instance : DecidableRel Block.disjoint := fun b c =>
  inferInstanceAs (Decidable (_ ∨ _))

/-- The heap invariant maintained by the modelled allocator: every live block
sits at a non-null address below the bump pointer, and live blocks are
pairwise disjoint. -/
def Heap.WF (h : Heap) : Prop :=
  (∀ b ∈ h.live, 1 ≤ b.addr ∧ b.addr + b.size ≤ h.next) ∧
  h.live.Pairwise Block.disjoint

instance (h : Heap) : Decidable h.WF :=
  inferInstanceAs (Decidable (_ ∧ _))

/-! Helper lemmas. -/

theorem isPow2_pos {n : Nat} (h : isPow2 n = true) : 0 < n := by
  unfold isPow2 at h
  simp only [Bool.and_eq_true, bne_iff_ne, ne_eq] at h
  omega

theorem le_alignUp (n a : Nat) (ha : 0 < a) : n ≤ alignUp n a := by
  unfold alignUp
  rw [Nat.mul_comm]
  have h1 := Nat.div_add_mod (n + a - 1) a
  have h2 : (n + a - 1) % a < a := Nat.mod_lt _ ha
  set q := (n + a - 1) / a with hq
  set m := a * q with hm
  omega

theorem alignUp_mod (n a : Nat) : alignUp n a % a = 0 := by
  unfold alignUp
  exact Nat.mul_mod_left _ _

/-- Case analysis on a boundary allocation with a valid power-of-two
alignment: the call returns null, or a non-null address aligned to `align`
that extends the heap with the new block at the front of the live list. -/
theorem alloc_cases (h : Heap) (size align : Nat) (hal : isPow2 align = true) :
    (divvy_cpp_alloc h size align = (h, none)) ∨
    (∃ a, divvy_cpp_alloc h size align =
        ({ h with next := a + max size 1, live := ⟨a, size, align⟩ :: h.live },
         some a) ∧
      1 ≤ a ∧ a % align = 0 ∧ h.next ≤ a ∧ a + size ≤ h.limit) := by
  have hpos : 0 < align := isPow2_pos hal
  unfold divvy_cpp_alloc opNewAlignedNothrow opNewAlignedThrowing allocCore
  rw [if_pos hal]
  by_cases hfit : alignUp (max h.next 1) align + size ≤ h.limit
  · right
    refine ⟨alignUp (max h.next 1) align, ?_, ?_, alignUp_mod _ _, ?_, hfit⟩
    · rw [if_pos hfit]
    · have := le_alignUp (max h.next 1) align hpos
      omega
    · have := le_alignUp (max h.next 1) align hpos
      omega
  · left
    rw [if_neg hfit]

/-- Characterisation of a successful boundary allocation. -/
theorem alloc_some_iff (h : Heap) (size align : Nat) (h2 : Heap) (a : Nat) :
    divvy_cpp_alloc h size align = (h2, some a) ↔
    (isPow2 align = true ∧ a = alignUp (max h.next 1) align ∧
      a + size ≤ h.limit ∧
      h2 = { h with
               next := a + max size 1,
               live := ⟨a, size, align⟩ :: h.live }) := by
  unfold divvy_cpp_alloc opNewAlignedNothrow opNewAlignedThrowing allocCore
  by_cases hal : isPow2 align
  · rw [if_pos hal]
    by_cases hfit : alignUp (max h.next 1) align + size ≤ h.limit
    · rw [if_pos hfit]
      simp only [Prod.mk.injEq, Option.some.injEq]
      constructor
      · rintro ⟨h1, h2⟩
        subst h2
        exact ⟨hal, rfl, hfit, h1.symm⟩
      · rintro ⟨-, rfl, -, rfl⟩
        exact ⟨rfl, rfl⟩
    · rw [if_neg hfit]
      simp only [Prod.mk.injEq]
      constructor
      · rintro ⟨-, h2⟩
        cases h2
      · rintro ⟨-, rfl, hfit2, -⟩
        exact absurd hfit2 hfit
  · rw [if_neg hal]
    simp only [Prod.mk.injEq]
    constructor
    · rintro ⟨-, h2⟩
      cases h2
    · rintro ⟨hal2, -⟩
      exact absurd hal2 hal

/-- Reading back a just-written pattern returns the pattern. -/
theorem readBytes_writeBytes (h : Heap) (a : Nat) (pat : List Nat) :
    readBytes (writeBytes h a pat) a pat.length = pat := by
  apply List.ext_getElem
  · simp [readBytes]
  · intro i h1 h2
    simp only [readBytes, writeBytes, List.getElem_map, List.getElem_range]
    have hlt : i < pat.length := by
      simpa [readBytes] using h2
    rw [if_pos ⟨Nat.le_add_right a i, by omega⟩, Nat.add_sub_cancel_left]
    exact List.getD_eq_getElem pat 0 hlt

/-- Deallocation does not change the bytes of an address range disjoint from
the freed one. -/
theorem readBytes_dealloc_of_disjoint (h : Heap) (ptr size align addr n : Nat)
    (hd : ptr + size ≤ addr ∨ addr + n ≤ ptr) :
    readBytes (divvy_cpp_dealloc h ptr size align) addr n =
      readBytes h addr n := by
  unfold divvy_cpp_dealloc opDeleteSizedAligned
  by_cases hp : ptr = 0
  · rw [if_pos hp]
  · rw [if_neg hp]
    unfold readBytes
    apply List.map_congr_left
    intro i hi
    rw [List.mem_range] at hi
    simp only []
    rw [if_neg (by omega)]

/-- Deallocating a list of blocks does not change the bytes of an address
range disjoint from all of them. -/
theorem readBytes_deallocList (bs : List Block) (h : Heap) (addr n : Nat)
    (hd : ∀ c ∈ bs, c.addr + c.size ≤ addr ∨ addr + n ≤ c.addr) :
    readBytes (deallocList h bs) addr n = readBytes h addr n := by
  induction bs generalizing h with
  | nil => rfl
  | cons c cs ih =>
      have step : deallocList h (c :: cs) =
          deallocList (divvy_cpp_dealloc h c.addr c.size c.align) cs := rfl
      rw [step, ih _ (fun d hdm => hd d (List.mem_cons_of_mem _ hdm)),
        readBytes_dealloc_of_disjoint _ _ _ _ _ _ (hd c (List.mem_cons_self _ _))]

/-- In a well-formed heap, two distinct live blocks occupy disjoint ranges. -/
theorem wf_disjoint_of_ne (h : Heap) (hwf : h.WF) (b c : Block)
    (hb : b ∈ h.live) (hc : c ∈ h.live) (hne : b ≠ c) : Block.disjoint b c := by
  have hsymm : Symmetric Block.disjoint := by
    intro x y hxy
    rcases hxy with h1 | h1
    · exact Or.inr h1
    · exact Or.inl h1
  exact hwf.2.forall hsymm hb hc hne

/-- A successful boundary allocation preserves the heap invariant. -/
theorem wf_alloc (h : Heap) (size align : Nat) (h2 : Heap) (a : Nat)
    (hwf : h.WF) (hs : divvy_cpp_alloc h size align = (h2, some a)) :
    h2.WF := by
  rw [alloc_some_iff] at hs
  obtain ⟨hal, rfl, hfit, rfl⟩ := hs
  have hpos := isPow2_pos hal
  have hge := le_alignUp (max h.next 1) align hpos
  constructor
  · intro b hb
    rcases List.mem_cons.mp hb with rfl | hb2
    · simp only []
      omega
    · have := hwf.1 b hb2
      simp only []
      omega
  · refine List.Pairwise.cons ?_ hwf.2
    intro c hc
    have h3 := hwf.1 c hc
    have hge2 : h.next ≤ alignUp (max h.next 1) align :=
      le_trans (Nat.le_max_left _ _) hge
    exact Or.inr
      (show c.addr + c.size ≤ alignUp (max h.next 1) align by omega)

/-- A boundary deallocation preserves the heap invariant. -/
theorem wf_dealloc (h : Heap) (ptr size align : Nat) (hwf : h.WF) :
    (divvy_cpp_dealloc h ptr size align).WF := by
  unfold divvy_cpp_dealloc opDeleteSizedAligned
  by_cases hp : ptr = 0
  · rw [if_pos hp]
    exact hwf
  · rw [if_neg hp]
    constructor
    · intro b hb
      exact hwf.1 b (List.mem_of_mem_filter hb)
    · exact List.Pairwise.sublist (List.filter_sublist _) hwf.2

/-! Concrete heaps used by the witnesses. -/

/-- An empty well-formed heap with 1000 addressable bytes. -/
def h0 : Heap :=
  { next := 1, limit := 1000, live := [], mem := fun _ => 0 }

/-- The heap produced by `divvy_cpp_alloc h0 4 4`: one live block at
address 4. -/
def h1w : Heap :=
  { next := 8, limit := 1000, live := [⟨4, 4, 4⟩], mem := fun _ => 0 }

/-- A well-formed heap with two disjoint live blocks. -/
def h2w : Heap :=
  { next := 30, limit := 1000, live := [⟨8, 8, 8⟩, ⟨16, 8, 8⟩],
    mem := fun _ => 0 }

/-! Claim theorems. -/

/-- C1: for every heap state, size, and valid power-of-two align,
`divvy_cpp_alloc` returns either null or some non-null address whose value
modulo align is zero; the `Option` result type excludes any other outcome. -/
theorem claim_C1_alloc_aligned_or_null (h : Heap) (size align : Nat)
    (hal : isPow2 align = true) :
    (divvy_cpp_alloc h size align).2 = none ∨
    ∃ a, (divvy_cpp_alloc h size align).2 = some a ∧ a ≠ 0 ∧
      a % align = 0 := by
  rcases alloc_cases h size align hal with hc | ⟨a, hc, h1, h2, -, -⟩
  · left
    rw [hc]
  · right
    exact ⟨a, by rw [hc], by omega, h2⟩

/-- Witness for C1 at size 16, align 8 on the empty heap. -/
theorem claim_C1_witness :
    isPow2 8 = true ∧
    ((divvy_cpp_alloc h0 16 8).2 = none ∨
     ∃ a, (divvy_cpp_alloc h0 16 8).2 = some a ∧ a ≠ 0 ∧ a % 8 = 0) :=
  ⟨by decide, claim_C1_alloc_aligned_or_null h0 16 8 (by decide)⟩

/-- C2: whenever the underlying throwing allocation primitive raises a
fault, the boundary returns the unchanged heap together with the null
address; the boundary result type `Heap × Option Nat` has no fault channel,
so failure is communicated solely through `none`. -/
theorem claim_C2_fault_intercepted_null (h : Heap) (size align : Nat)
    (f : AllocFault) (hf : opNewAlignedThrowing h size align = .error f) :
    divvy_cpp_alloc h size align = (h, none) := by
  unfold divvy_cpp_alloc opNewAlignedNothrow
  rw [hf]

/-- Witness for C2 at the invalid alignment 3, where the throwing primitive
faults. -/
theorem claim_C2_witness :
    opNewAlignedThrowing h0 8 3 = .error .badAlloc ∧
    divvy_cpp_alloc h0 8 3 = (h0, none) :=
  ⟨rfl, claim_C2_fault_intercepted_null h0 8 3 .badAlloc rfl⟩

/-- C3: after a successful allocation of `size` bytes at address `a`,
writing any byte pattern of length `size` into `[a, a+size)` and reading
the range back yields the same pattern. -/
theorem claim_C3_block_usable (h h2 : Heap) (size align a : Nat)
    (hs : divvy_cpp_alloc h size align = (h2, some a))
    (pat : List Nat) (hlen : pat.length = size) :
    readBytes (writeBytes h2 a pat) a size = pat := by
  subst hlen
  exact readBytes_writeBytes h2 a pat

/-- Witness for C3: allocate 4 bytes at alignment 4, write four bytes of
0xAB (= 171) and read them back. -/
theorem claim_C3_witness :
    divvy_cpp_alloc h0 4 4 = (h1w, some 4) ∧
    ([171, 171, 171, 171] : List Nat).length = 4 ∧
    readBytes (writeBytes h1w 4 [171, 171, 171, 171]) 4 4 =
      [171, 171, 171, 171] :=
  ⟨rfl, rfl, claim_C3_block_usable h0 h1w 4 4 4 rfl [171, 171, 171, 171] rfl⟩

/-- C4: boundary deallocation is a total function with no error channel
(its result type is `Heap`, not an `Option` or `Except`); deallocating a
live block of a well-formed heap with its originating size and align
removes that block from the live set. -/
theorem claim_C4_dealloc_releases (h : Heap) (b : Block)
    (hwf : h.WF) (hb : b ∈ h.live) :
    b ∉ (divvy_cpp_dealloc h b.addr b.size b.align).live := by
  have hpos : 1 ≤ b.addr := (hwf.1 b hb).1
  unfold divvy_cpp_dealloc opDeleteSizedAligned
  rw [if_neg (by omega)]
  intro hmem
  have hfm := List.of_mem_filter hmem
  simp at hfm

/-- Witness for C4 on a heap with one live block. -/
theorem claim_C4_witness :
    Heap.WF h1w ∧ (⟨4, 4, 4⟩ : Block) ∈ h1w.live ∧
    (⟨4, 4, 4⟩ : Block) ∉ (divvy_cpp_dealloc h1w 4 4 4).live :=
  ⟨by decide, by decide,
    claim_C4_dealloc_releases h1w ⟨4, 4, 4⟩ (by decide) (by decide)⟩

/-- C5: freeing any subset of the live blocks of a well-formed heap, each
exactly once with its originating size and align, leaves the byte contents
of every other still-live block unchanged. -/
theorem claim_C5_dealloc_frame (h : Heap) (hwf : h.WF) (bs : List Block)
    (b : Block) (hsub : ∀ c ∈ bs, c ∈ h.live) (hb : b ∈ h.live)
    (hnb : b ∉ bs) :
    readBytes (deallocList h bs) b.addr b.size =
      readBytes h b.addr b.size := by
  apply readBytes_deallocList
  intro c hc
  have hne : c ≠ b := fun he => hnb (he ▸ hc)
  exact wf_disjoint_of_ne h hwf c b (hsub c hc) hb hne

/-- Witness for C5: free the first of two live blocks and read back the
second block's range. -/
theorem claim_C5_witness :
    Heap.WF h2w ∧ (∀ c ∈ [(⟨8, 8, 8⟩ : Block)], c ∈ h2w.live) ∧
    (⟨16, 8, 8⟩ : Block) ∈ h2w.live ∧
    (⟨16, 8, 8⟩ : Block) ∉ [(⟨8, 8, 8⟩ : Block)] ∧
    readBytes (deallocList h2w [⟨8, 8, 8⟩]) 16 8 = readBytes h2w 16 8 :=
  ⟨by decide, by decide, by decide, by decide,
    claim_C5_dealloc_frame h2w (by decide) [⟨8, 8, 8⟩] ⟨16, 8, 8⟩
      (by decide) (by decide) (by decide)⟩

/-- C6: a failed allocation is all-or-nothing: whenever the boundary
returns null, the heap state is exactly the input heap — no partial
completion and no retry is representable, as both operations are single
total functions on the heap state. -/
theorem claim_C6_failed_alloc_leaves_heap_unchanged (h : Heap)
    (size align : Nat) (hf : (divvy_cpp_alloc h size align).2 = none) :
    (divvy_cpp_alloc h size align).1 = h := by
  unfold divvy_cpp_alloc opNewAlignedNothrow at hf ⊢
  cases he : opNewAlignedThrowing h size align with
  | ok r =>
      obtain ⟨h2, a⟩ := r
      rw [he] at hf
      simp at hf
  | error f =>
      rfl

/-- Witness for C6 at a request larger than the heap limit. -/
theorem claim_C6_witness :
    (divvy_cpp_alloc h0 2000 8).2 = none ∧
    (divvy_cpp_alloc h0 2000 8).1 = h0 :=
  ⟨rfl, claim_C6_failed_alloc_leaves_heap_unchanged h0 2000 8 rfl⟩

/-- C7: a zero-size request returns normally — the boundary is a total
function — and with a valid power-of-two align yields either null or some
non-null address; which of the two is the underlying allocator's own
convention. -/
theorem claim_C7_zero_size_returns_normally (h : Heap) (align : Nat)
    (hal : isPow2 align = true) :
    (divvy_cpp_alloc h 0 align).2 = none ∨
    ∃ a, (divvy_cpp_alloc h 0 align).2 = some a ∧ a ≠ 0 := by
  rcases alloc_cases h 0 align hal with hc | ⟨a, hc, h1, -, -, -⟩
  · left
    rw [hc]
  · right
    exact ⟨a, by rw [hc], by omega⟩

/-- Witness for C7 at align 16 on the empty heap. -/
theorem claim_C7_witness :
    isPow2 16 = true ∧
    ((divvy_cpp_alloc h0 0 16).2 = none ∨
     ∃ a, (divvy_cpp_alloc h0 0 16).2 = some a ∧ a ≠ 0) :=
  ⟨by decide, claim_C7_zero_size_returns_normally h0 16 (by decide)⟩

/-- C9: passing the null pointer to the boundary deallocation is a
well-defined no-op for every size and align, because the underlying sized
aligned operator delete accepts a null pointer and does nothing. -/
theorem claim_C9_dealloc_null_noop (h : Heap) (size align : Nat) :
    divvy_cpp_dealloc h 0 size align = h := by
  unfold divvy_cpp_dealloc opDeleteSizedAligned
  rw [if_pos rfl]

/-- C10: both boundary operations are direct pass-throughs: for every
input, allocation equals the underlying nothrow aligned operator new and
deallocation equals the underlying sized aligned operator delete — no
validation of align, no adjustment of size or align, no bookkeeping, and no
boundary-private state. -/
theorem claim_C10_passthrough :
    (∀ (h : Heap) (size align : Nat),
      divvy_cpp_alloc h size align = opNewAlignedNothrow h size align) ∧
    (∀ (h : Heap) (ptr size align : Nat),
      divvy_cpp_dealloc h ptr size align =
        opDeleteSizedAligned h ptr size align) :=
  ⟨fun _ _ _ => rfl, fun _ _ _ _ => rfl⟩

end Divvy
